import Mathlib

set_option linter.unusedVariables false

/-!
Verification of the MEP TakeOff extraction/derivation core.

Shallow embedding of the Python modules under `takeoff_system/`:
* `validator.py`       — accuracy scoring of generated vs reference counts;
* `business_rules.py`  — derivation of supporting materials from device counts;
* `pdf_processor.py`   — sheet-number classification;
* `pdf_extractor.py`   — doubled-tag fixture matching, multi-floor deduplication,
                         technology extraction, page-range handling;
* `models.py`          — `DeviceCounts` and its merge.

Modelling conventions: Python dicts are association lists with unique keys read
through `.get(k, 0)`-style lookups (`getCount`); Python float arithmetic on the
small decimal constants of this code base is modelled exactly over `ℚ`;
`int(x)` on a non-negative value is `⌊x⌋`; functions that `raise` are embedded
in `Except`.
-/

/-! ## Validator (src/takeoff_system/validator.py) -/

structure ValidationResult where
  item : String
  expected : Nat
  actual : Nat
  difference : Int
  accuracy_pct : Rat
  status : String
deriving DecidableEq

/-- Python `round()` (banker's rounding, half to even) on an exact rational. -/
def pyRoundHalfEven (q : Rat) : Int :=
  if q - ⌊q⌋ = 1 / 2 then (if Even ⌊q⌋ then ⌊q⌋ else ⌊q⌋ + 1) else round q

/-- Python `round(x, 1)`: round to one decimal place. -/
def round1 (q : Rat) : Rat := (pyRoundHalfEven (10 * q) : Rat) / 10

/-- Accuracy computation of `validate_counts` (validator.py lines 36-42). -/
def scoreAccuracy (expected actual : Nat) : Rat :=
  if expected = 0 then (if actual = 0 then 100 else 0)
  else max 0 ((1 - ((((actual : Int) - (expected : Int)).natAbs : Rat) / (expected : Rat))) * 100)

/-- One iteration of the loop body of `validate_counts` (validator.py lines 30-61):
difference, accuracy, status and the `ValidationResult` record (with
`accuracy_pct = round(accuracy, 1)`). -/
def scoreItem (item : String) (expected actual : Nat) : ValidationResult :=
  let difference : Int := (actual : Int) - (expected : Int)
  let accuracy : Rat := scoreAccuracy expected actual
  let status : String :=
    if actual = expected then "exact"
    else if difference.natAbs ≤ 2 then "close"
    else if 80 ≤ accuracy then "acceptable"
    else "miss"
  ⟨item, expected, actual, difference, round1 accuracy, status⟩

/-- `validator.validate_counts`: one record per key of the union of both
mappings.  Python's `sorted(set(generated) | set(ground_truth))` is modelled by
`dedup` of the concatenated key lists; `sorted` only fixes the output order,
which no property here depends on. -/
def validate_counts (generated ground_truth : List (String × Nat)) : List ValidationResult :=
  let all_items := (generated.map Prod.fst ++ ground_truth.map Prod.fst).dedup
  all_items.map (fun item =>
    scoreItem item ((ground_truth.lookup item).getD 0) ((generated.lookup item).getD 0))

/-! ## Business rules (src/takeoff_system/business_rules.py) -/

/-- `derive_power_packs` (business_rules.py lines 30-38):
`int(total_sensors * 0.74)`. -/
def derive_power_packs (ceiling_sensors wall_sensors : Nat) : Int :=
  ⌊((ceiling_sensors + wall_sensors : Nat) : Rat) * (74 / 100)⌋

/-- `derive_cable_and_jhooks` (business_rules.py lines 41-53):
cable feet and J-hooks from data-jack count. -/
def derive_cable_and_jhooks (data_jacks : Nat) : Nat × Nat :=
  let cable_feet := data_jacks * 10
  let jhooks := cable_feet / 4
  (cable_feet, jhooks)

/-- Per-size fitting ratios of `derive_fittings_from_conduit`
(business_rules.py lines 79-109). -/
structure FittingRatios where
  connector : Rat
  coupling : Rat
  bushing : Rat
  strap1hole : Rat
  strapUnistrut : Rat

/-- Ratio table of `derive_fittings_from_conduit`; unknown sizes default to the
3/4-inch ratios (business_rules.py line 116). -/
def fittingRatiosFor (size : String) : FittingRatios :=
  if size = "1/2\"" then ⟨10, 8, 10, 12, 0⟩
  else if size = "3/4\"" then ⟨105 / 10, 92 / 10, 105 / 10, 92 / 10, 31 / 10⟩
  else if size = "1\"" then ⟨49 / 10, 81 / 10, 49 / 10, 19 / 10, 101 / 10⟩
  else if size = "1-1/4\"" then ⟨118 / 10, 58 / 10, 118 / 10, 41 / 10, 73 / 10⟩
  else ⟨105 / 10, 92 / 10, 105 / 10, 92 / 10, 31 / 10⟩

/-- `derive_fittings_from_conduit` (business_rules.py lines 60-134): per conduit
size with positive length, emit connector/coupling/bushing/strap entries keyed
by `size ++ " <fitting>"`. -/
def derive_fittings_from_conduit (conduit_lengths : List (String × Int)) : List (String × Int) :=
  conduit_lengths.flatMap (fun sl =>
    if sl.2 ≤ 0 then []
    else
      let factor : Rat := (sl.2 : Rat) / 100
      let r := fittingRatiosFor sl.1
      [(sl.1 ++ " Connector", ⌊factor * r.connector⌋),
       (sl.1 ++ " Coupling", ⌊factor * r.coupling⌋),
       (sl.1 ++ " Bushing", ⌊factor * r.bushing⌋),
       (sl.1 ++ " 1-Hole Strap", ⌊factor * r.strap1hole⌋)] ++
      (if 0 < r.strapUnistrut then [(sl.1 ++ " Unistrut Strap", ⌊factor * r.strapUnistrut⌋)] else []))

/-- `derive_boxes` (business_rules.py lines 163-207). -/
def derive_boxes (duplex_count gfi_count switches_count dimmers_count wall_sensors
    ceiling_sensors daylight_sensors data_jacks floor_boxes : Nat) : List (String × Int) :=
  let wall_devices := duplex_count + gfi_count + switches_count + dimmers_count + wall_sensors
  let ceiling_devices := ceiling_sensors + daylight_sensors
  let data_new_boxes : Int := ⌊(data_jacks : Rat) * (15 / 100)⌋
  let deep_boxes : Int := ⌊(wall_devices : Rat) * (10 / 100)⌋
  [("4\" Square Box w/bracket", max 0 ((wall_devices : Int) - deep_boxes)),
   ("4\" Square Box", (ceiling_devices : Int)),
   ("4-11/16\" Square Box w/bracket", data_new_boxes),
   ("4\" Square Box 2-1/8\" deep", deep_boxes)]

/-- `derive_plaster_rings` (business_rules.py lines 210-242). -/
def derive_plaster_rings (duplex_count gfi_count switches_count dimmers_count wall_sensors
    ceiling_sensors daylight_sensors two_gang_locations : Nat) : List (String × Int) :=
  let single_gang_devices : Int :=
    (duplex_count : Int) + gfi_count + switches_count + dimmers_count + wall_sensors
      - (two_gang_locations * 2 : Nat)
  let ceiling_devices := ceiling_sensors + daylight_sensors
  [("4\" Square-1G Plaster Ring", max 0 single_gang_devices),
   ("4\" Square-2G Plaster Ring", (two_gang_locations : Int)),
   ("4\" Square-3/0 Plaster Ring", (ceiling_devices : Int))]

/-- `derive_plates` (business_rules.py lines 249-284). -/
def derive_plates (duplex_count gfi_count dimmer_count sp_switches three_way_switches
    two_gang_boxes blank_boxes : Nat) : List (String × Int) :=
  let duplex_plates : Int := max 0 ((duplex_count : Int) - (two_gang_boxes * 2 : Nat))
  let decora_plates := gfi_count + dimmer_count
  let switch_plates := sp_switches + three_way_switches
  let blank_covers := blank_boxes
  let blank_w_ko : Int := ⌊(blank_boxes : Rat) * (3 / 10)⌋
  [("Duplex Plate", duplex_plates),
   ("Decora Plate", (decora_plates : Int)),
   ("Switch Plate", (switch_plates : Int)),
   ("Blank Cover", max 0 ((blank_covers : Int) - blank_w_ko)),
   ("Blank Cover w/KO", blank_w_ko)]

/-- `derive_consumables` (business_rules.py lines 291-317). -/
def derive_consumables (total_devices : Nat) (total_boxes : Int) (total_conduit_feet : Int) :
    List (String × Int) :=
  [("Red Wirenut", (total_devices : Int) * 4),
   ("Yellow Wirenut", (total_devices : Int) * 2),
   ("Ground Screw", total_boxes),
   ("Pan Head Tapping Screw #8", (total_devices : Int) * 4),
   ("Poly Pull Line (ft)", ⌊(total_conduit_feet : Rat) * (5 / 10)⌋),
   ("Black Tape", (max 1 (total_devices / 50) : Nat)),
   ("Red Phase Tape", (max 1 (total_devices / 100) : Nat)),
   ("Blue Phase Tape", (max 1 (total_devices / 100) : Nat))]

/-- `derive_fixture_accessories` (business_rules.py lines 324-344). -/
def derive_fixture_accessories (lay_in_fixtures linear_fixtures pendant_fixtures
    surface_fixtures : Nat) : List (String × Int) :=
  [("Fixture Whip", (lay_in_fixtures : Int)),
   ("Pendant/Cable", (linear_fixtures * 4 : Nat)),
   ("Aircraft Cable Kit", (pendant_fixtures * 4 : Nat)),
   ("Canopy Kit", (pendant_fixtures : Int))]

/-- `derive_wire_from_conduit` (business_rules.py lines 369-408): wire lengths
from conduit lengths, one entry per conduit size present with positive length. -/
def derive_wire_from_conduit (conduit_lengths : List (String × Int)) : List (String × Int) :=
  (match conduit_lengths.lookup "1/2\"" with
   | some v => if 0 < v then [("#14 THHN", ⌊(v : Rat) * 3⌋)] else []
   | none => []) ++
  (match conduit_lengths.lookup "3/4\"" with
   | some v => if 0 < v then [("#12 THHN", ⌊(v : Rat) * (23 / 10)⌋)] else []
   | none => []) ++
  (match conduit_lengths.lookup "1\"" with
   | some v => if 0 < v then [("#10 THHN", ⌊(v : Rat) * (84 / 10)⌋)] else []
   | none => []) ++
  (match conduit_lengths.lookup "1-1/4\"" with
   | some v => if 0 < v then [("#8 THHN", ⌊(v : Rat) * (8 / 100)⌋)] else []
   | none => [])

/-- Python truthiness of the optional `conduit_lengths` dict: `None` and the
empty dict are falsy. -/
def pyNonEmpty (co : Option (List (String × Int))) : Bool :=
  match co with
  | none => false
  | some l => !l.isEmpty

/-- `derive_all_materials` (business_rules.py lines 415-550).  `counts` models
the Python dict read through `counts.get(name, 0)`; the result dict is an
association list (all keys produced by the unconditional groups are pairwise
distinct, so `derived.update(...)` is plain concatenation). -/
def derive_all_materials (counts : String → Nat)
    (conduit_lengths : Option (List (String × Int)))
    (include_fittings include_consumables include_wire : Bool) : List (String × Int) :=
  let ceiling_sensors := counts "Ceiling Occupancy Sensor"
  let wall_sensors := counts "Wall Occupancy Sensor"
  let daylight_sensors := counts "Daylight Sensor"
  let data_jacks := counts "Cat 6 Jack"
  let duplex := counts "Duplex Receptacle"
  let gfi := counts "GFI Receptacle"
  let dimmers := counts "Wireless Dimmer"
  let sp_switches := counts "SP Switch"
  let three_way := counts "3-Way Switch"
  let lay_in_fixtures := counts "F2" + counts "F8"
  let linear_count := counts "4' Linear LED" + counts "6' Linear LED" +
    counts "8' Linear LED" + counts "10' Linear LED" + counts "16' Linear LED"
  let pendant_count := counts "F10-22" + counts "F10-30" + counts "F11-4X4" +
    counts "F11-6X6" + counts "F11-8X8" + counts "F11-10X10" + counts "F11-16X10"
  let surface_count := counts "F7" + counts "F7E"
  let total_switches := sp_switches + three_way
  let boxes := derive_boxes duplex gfi total_switches dimmers wall_sensors
    ceiling_sensors daylight_sensors data_jacks 0
  let rings := derive_plaster_rings duplex gfi total_switches dimmers wall_sensors
    ceiling_sensors daylight_sensors 0
  let plates := derive_plates duplex gfi dimmers sp_switches three_way 0 0
  let accessories := derive_fixture_accessories lay_in_fixtures linear_count
    pendant_count surface_count
  let cj := derive_cable_and_jhooks data_jacks
  let base : List (String × Int) :=
    [("Power Pack", derive_power_packs ceiling_sensors wall_sensors),
     ("Cat 6 Cable (ft)", (cj.1 : Int)),
     ("J-Hook", (cj.2 : Int))]
  let withGroups := base ++ boxes ++ rings ++ plates ++ accessories
  let withFittings := withGroups ++
    (if include_fittings && pyNonEmpty conduit_lengths then
      derive_fittings_from_conduit (conduit_lengths.getD []) else [])
  let withConsumables := withFittings ++
    (if include_consumables then
      (let total_devices := duplex + gfi + total_switches + dimmers +
        ceiling_sensors + wall_sensors + daylight_sensors + data_jacks
       let total_boxes := (boxes.map Prod.snd).sum
       let total_conduit := match conduit_lengths with
         | some l => (l.map Prod.snd).sum
         | none => 0
       derive_consumables total_devices total_boxes total_conduit)
     else [])
  withConsumables ++
    (if include_wire && pyNonEmpty conduit_lengths then
      derive_wire_from_conduit (conduit_lengths.getD []) else [])

/-- Keys of `derive_all_materials` when no conduit data is supplied: the three
validated-rule keys, boxes, rings, plates, accessories and (if requested)
consumables. -/
def baseMaterialKeys (include_consumables : Bool) : List String :=
  ["Power Pack", "Cat 6 Cable (ft)", "J-Hook",
   "4\" Square Box w/bracket", "4\" Square Box", "4-11/16\" Square Box w/bracket",
   "4\" Square Box 2-1/8\" deep",
   "4\" Square-1G Plaster Ring", "4\" Square-2G Plaster Ring", "4\" Square-3/0 Plaster Ring",
   "Duplex Plate", "Decora Plate", "Switch Plate", "Blank Cover", "Blank Cover w/KO",
   "Fixture Whip", "Pendant/Cable", "Aircraft Cable Kit", "Canopy Kit"] ++
  (if include_consumables then
    ["Red Wirenut", "Yellow Wirenut", "Ground Screw", "Pan Head Tapping Screw #8",
     "Poly Pull Line (ft)", "Black Tape", "Red Phase Tape", "Blue Phase Tape"]
   else [])

/-- The five key suffixes a fitting entry of `derive_fittings_from_conduit` can have. -/
def fittingKeySuffixes : List String :=
  [" Connector", " Coupling", " Bushing", " 1-Hole Strap", " Unistrut Strap"]

/-- The four keys `derive_wire_from_conduit` can emit. -/
def wireKeys : List String := ["#14 THHN", "#12 THHN", "#10 THHN", "#8 THHN"]

/-- Boolean suffix test on the character lists underlying two strings. -/
def strEndsWith (suf s : String) : Bool :=
  suf.data == s.data.drop (s.data.length - suf.data.length)

/-! ## Sheet classification (src/takeoff_system/pdf_processor.py) -/

inductive SheetType where
  | LEGEND
  | DEMO
  | NEW
  | SCHEDULE
  | REFERENCE
deriving DecidableEq

/-- Digit-string parsing: `some n` iff the character list is non-empty and all
digits (the digit core of Python `int()`). -/
def digitsToNat (cs : List Char) : Option Nat :=
  if cs.isEmpty then none
  else if cs.all Char.isDigit then
    some (cs.foldl (fun a c => 10 * a + (c.toNat - '0'.toNat)) 0)
  else none

/-- Model of Python `int(s)` on the strings that occur as sheet-number blocks:
an optional sign followed by digits; anything else fails (raises `ValueError`
in Python, modelled as `none`). -/
def parsePyInt (cs : List Char) : Option Int :=
  match cs with
  | '-' :: rest => (digitsToNat rest).map (fun n => -(n : Int))
  | '+' :: rest => (digitsToNat rest).map (fun n => (n : Int))
  | _ => (digitsToNat cs).map (fun n => (n : Int))

/-- Range rules of `classify_sheet_number` (pdf_processor.py lines 30-39). -/
def classifyNum (num : Int) : SheetType :=
  if num = 100 then SheetType.DEMO
  else if 200 ≤ num ∧ num < 600 then SheetType.NEW
  else if num < 100 then SheetType.LEGEND
  else if 600 ≤ num ∧ num < 800 then SheetType.SCHEDULE
  else SheetType.REFERENCE

/-- `classify_sheet_number` (pdf_processor.py lines 10-39): strip the letter
prefix, parse the numeric block, classify by range; short or unparseable codes
are `REFERENCE`. -/
def classify_sheet_number (sheet_number : String) : SheetType :=
  if sheet_number.data.length < 2 then SheetType.REFERENCE
  else
    match parsePyInt sheet_number.data.tail with
    | none => SheetType.REFERENCE
    | some num => classifyNum num

/-! ## Multi-floor deduplication (src/takeoff_system/pdf_extractor.py) -/

/-- Keynote deduplication of `extract_demo_items` (pdf_extractor.py line 1320):
`count // floor_count if floor_count > 1 else count`. -/
def demoItemDedup (count floor_count : Nat) : Nat :=
  if 1 < floor_count then count / floor_count else count

/-- Floor-box deduplication of `extract_demo_items` (pdf_extractor.py
lines 1349 and 1354): `(fb_count + floor_count - 1) // floor_count`. -/
def floorBoxDedup (count floor_count : Nat) : Nat :=
  (count + floor_count - 1) / floor_count

/-- Control-device deduplication of `extract_controls` (pdf_extractor.py
lines 1094-1096): raw counts are halved for the two stacked floor views. -/
def controlsDedup (count : Nat) : Nat := count / 2

/-! ## Association-list dictionaries with integer counts

Python dicts keyed by item name holding counts, read through `.get(k, 0)` and
written by `d[k] = v`.  `setEntry` overwrites the (first) binding of an
existing key and appends a fresh key, exactly like dict assignment. -/

/-- `d.get(k, 0)` on a count dict. -/
def getCount (d : List (String × Nat)) (k : String) : Nat := (d.lookup k).getD 0

/-- `d[k] = v` on a count dict. -/
def setEntry : List (String × Nat) → String → Nat → List (String × Nat)
  | [], k, v => [(k, v)]
  | (k0, v0) :: rest, k, v =>
    if k0 = k then (k, v) :: rest else (k0, v0) :: setEntry rest k v

/-- Per-key accumulation `self[k] = self.get(k, 0) + other[k]` over the entries
of `other`; the loop body of `DeviceCounts.merge` (models.py lines 53-57) and of
the aggregation in `extract_fixture_counts_all_floors` (pdf_extractor.py
lines 213-214). -/
def mergeDict (self other : List (String × Nat)) : List (String × Nat) :=
  other.foldl (fun acc kv => setEntry acc kv.1 (getCount acc kv.1 + kv.2)) self

/-! ## Fixture-tag extraction (src/takeoff_system/pdf_extractor.py lines 123-219) -/

/-- `FIXTURE_PATTERNS` (pdf_extractor.py lines 125-144): doubled-character
token → fixture type. -/
def FIXTURE_PATTERNS : List (String × String) :=
  [("FF22", "F2"), ("FF33", "F3"), ("FF44", "F4"), ("FF44EE", "F4E"), ("FF55", "F5"),
   ("FF77", "F7"), ("FF77EE", "F7E"), ("FF88", "F8"), ("FF99", "F9"),
   ("FF1100", "F10"), ("FF1111", "F11"), ("XX11", "X1"), ("XX22", "X2"),
   ("FFFF5555", "F5"), ("XXXX1111", "X1"), ("XXXX2222", "X2")]

/-- The alternatives of `DOUBLED_FIXTURE_REGEX` (pdf_extractor.py
lines 149-152) in the order the regex engine tries them: the groups
`FFFF5555|XXXX1111|XXXX2222|FF(?:1100|1111|44EE|77EE|22|33|44|55|77|88|99)|XX(?:11|22)`
expanded to their literal words, longer patterns first. -/
def DOUBLED_FIXTURE_ALTERNATIVES : List String :=
  ["FFFF5555", "XXXX1111", "XXXX2222", "FF1100", "FF1111", "FF44EE", "FF77EE",
   "FF22", "FF33", "FF44", "FF55", "FF77", "FF88", "FF99", "XX11", "XX22"]

/-- Case-insensitive literal match of a pattern word against a prefix of the
input (the regex runs with `re.IGNORECASE`; pattern words are upper case).
Returns the input remaining after the match. -/
def matchLit : List Char → List Char → Option (List Char)
  | [], input => some input
  | _ :: _, [] => none
  | p :: ps, c :: cs => if c.toUpper = p then matchLit ps cs else none

/-- First alternative that matches at the current position — Python regex
alternation semantics (leftmost alternative wins). -/
def tryAlternatives : List String → List Char → Option (String × List Char)
  | [], _ => none
  | p :: ps, input =>
    match matchLit p.data input with
    | some rest => some (p, rest)
    | none => tryAlternatives ps input

/-- `re.findall` scan for `DOUBLED_FIXTURE_REGEX`: at each position try the
alternatives in order; on a match, emit it (upper-cased, which for these
literal alternatives is the pattern word itself) and continue after it; on
failure advance one character.  Fuel-indexed so the kernel can evaluate it;
`fixtureMatches` supplies fuel `text.length`, which the scan never exhausts. -/
def scanFixtures : Nat → List Char → List String
  | 0, _ => []
  | _ + 1, [] => []
  | fuel + 1, c :: cs =>
    match tryAlternatives DOUBLED_FIXTURE_ALTERNATIVES (c :: cs) with
    | some (p, rest) => p :: scanFixtures fuel rest
    | none => scanFixtures fuel cs

/-- All (upper-cased) matches of `DOUBLED_FIXTURE_REGEX` in a page text
(pdf_extractor.py line 182). -/
def fixtureMatches (text : List Char) : List String := scanFixtures text.length text

/-- Table lookup `FIXTURE_PATTERNS[match_upper]` (pdf_extractor.py
lines 186-187). -/
def lookupFixture (m : String) : Option String := FIXTURE_PATTERNS.lookup m

/-- The counting loop of `extract_fixture_counts` (pdf_extractor.py
lines 184-188): `counts[fixture_type] += 1` per recognized match. -/
def fixtureTally (ms : List String) : List (String × Nat) :=
  ms.foldl (fun acc m =>
    match lookupFixture m with
    | some ft => setEntry acc ft (getCount acc ft + 1)
    | none => acc) []

/-- Fixture counts of one page text. -/
def fixtureCountsOfText (text : List Char) : List (String × Nat) :=
  fixtureTally (fixtureMatches text)

/-- `extract_fixture_counts` (pdf_extractor.py lines 155-190).  The document is
its pages' extracted texts; a page index past the end raises `ValueError`
(line 176), embedded as `Except.error`. -/
def extract_fixture_counts (pages : List (List Char)) (page_num : Nat) :
    Except String (List (String × Nat)) :=
  if h : page_num < pages.length then
    Except.ok (fixtureCountsOfText (pages.get ⟨page_num, h⟩))
  else Except.error "Page not found in PDF"

/-- `extract_fixture_counts_all_floors` (pdf_extractor.py lines 193-219):
aggregate per-floor counts, catching and skipping any page whose extraction
raises. -/
def extract_fixture_counts_all_floors (pages : List (List Char))
    (floor_pages : List (String × Nat)) : List (String × Nat) :=
  floor_pages.foldl (fun acc fp =>
    match extract_fixture_counts pages fp.2 with
    | Except.ok c => mergeDict acc c
    | Except.error _ => acc) []

/-! ## Technology extraction (src/takeoff_system/pdf_extractor.py lines 1489-1612) -/

/-- A word as returned by `page.extract_words()`: text with bounding box. -/
structure PWord where
  text : String
  x0 : Rat
  x1 : Rat
  top : Rat

/-- A page as seen by `extract_technology`: dimensions, extracted text and
positioned words. -/
structure PdfPage where
  width : Rat
  height : Rat
  text : List Char
  words : List PWord

/-- Atoms of the word-boundary regexes in `patterns_jacks`: a literal
character, a character class, or an optional character class (`\d?`,
`[- ]?`, `[KF]`). -/
inductive RAtom where
  | lit (c : Char)
  | cls (p : Char → Bool)
  | opt (p : Char → Bool)

/-- Regex word character (`\w`): alphanumeric or underscore. -/
def isWordChar (c : Char) : Bool := c.isAlphanum || c = '_'

/-- Case normalization: upper-case the input character when the regex runs
with `re.IGNORECASE` (patterns are written upper case). -/
def normC (ic : Bool) (c : Char) : Char := if ic then c.toUpper else c

/-- Match a sequence of atoms followed by a trailing `\b` against a prefix of
the input, with regex backtracking on optional atoms (greedy first).  Returns
the remaining input on success. -/
def matchAtoms (ic : Bool) : List RAtom → List Char → Option (List Char)
  | [], [] => some []
  | [], c :: cs => if isWordChar c then none else some (c :: cs)
  | RAtom.lit _ :: _, [] => none
  | RAtom.lit p :: as, c :: cs => if normC ic c = p then matchAtoms ic as cs else none
  | RAtom.cls _ :: _, [] => none
  | RAtom.cls p :: as, c :: cs => if p (normC ic c) then matchAtoms ic as cs else none
  | RAtom.opt p :: as, [] => matchAtoms ic as []
  | RAtom.opt p :: as, c :: cs =>
    if p (normC ic c) then
      match matchAtoms ic as cs with
      | some rest => some rest
      | none => matchAtoms ic as (c :: cs)
    else matchAtoms ic as (c :: cs)

/-- `re.findall` for one `\b...\b` pattern: count non-overlapping matches left
to right.  The leading `\b` holds where the previous character is not a word
character (tracked in the last argument; every pattern ends in a word
character, so after a match the tracker is `true`).  Fuel-indexed like
`scanFixtures`. -/
def scanBounded (ic : Bool) (atoms : List RAtom) : Nat → List Char → Bool → Nat
  | 0, _, _ => 0
  | _ + 1, [], _ => 0
  | fuel + 1, c :: cs, prevW =>
    if prevW then scanBounded ic atoms fuel cs (isWordChar c)
    else
      match matchAtoms ic atoms (c :: cs) with
      | some rest => 1 + scanBounded ic atoms fuel rest true
      | none => scanBounded ic atoms fuel cs (isWordChar c)

/-- Number of matches of one bounded pattern in a text. -/
def countPattern (ic : Bool) (atoms : List RAtom) (text : List Char) : Nat :=
  scanBounded ic atoms text.length text false

/-- Literal pattern word as atoms. -/
def litAtoms (s : String) : List RAtom := s.data.map RAtom.lit

/-- `[KF]` character class. -/
def isKF (c : Char) : Bool := c = 'K' || c = 'F'

/-- `[- ]` character class. -/
def isDashSpace (c : Char) : Bool := c = '-' || c = ' '

/-- `patterns_jacks` (pdf_extractor.py lines 1533-1571): bounded pattern and
jacks contributed per match. -/
def TECH_JACK_PATTERNS : List (List RAtom × Nat) :=
  [(litAtoms "WP1", 1), (litAtoms "WP2", 2), (litAtoms "WP4", 4),
   (litAtoms "2C", 2), (litAtoms "C2", 2), (litAtoms "4C", 4), (litAtoms "C4", 4),
   (litAtoms "1C", 1), (litAtoms "C1", 1),
   (litAtoms "1PW", 1), (litAtoms "2PW", 2),
   (litAtoms "1P" ++ [RAtom.cls isKF], 1),
   (litAtoms "2P" ++ [RAtom.cls isKF], 2),
   (litAtoms "4P" ++ [RAtom.cls isKF], 4),
   (litAtoms "KP" ++ [RAtom.opt Char.isDigit], 1),
   (litAtoms "CR" ++ [RAtom.opt Char.isDigit], 1),
   (litAtoms "AP" ++ [RAtom.opt Char.isDigit], 2),
   (litAtoms "CAM" ++ [RAtom.opt Char.isDigit], 1),
   (litAtoms "TV" ++ [RAtom.opt Char.isDigit], 2),
   (litAtoms "PRJ" ++ [RAtom.opt Char.isDigit], 2),
   (litAtoms "DOC", 1),
   (litAtoms "SSC", 1), (litAtoms "CSS", 2),
   (litAtoms "COM" ++ [RAtom.opt Char.isDigit], 1),
   (litAtoms "FB" ++ [RAtom.opt isDashSpace, RAtom.lit 'D'], 4),
   (litAtoms "DFB", 4),
   (litAtoms "WS" ++ [RAtom.opt Char.isDigit], 2),
   (litAtoms "DATA", 1), (litAtoms "DO", 1)]

/-- `int(text_val[0]) if text_val[0].isdigit() else 2` (pdf_extractor.py
line 1592). -/
def firstCharJacks (t : String) : Nat :=
  match t.data with
  | [] => 2
  | c :: _ => if c.isDigit then c.toNat - '0'.toNat else 2

/-- The word-position loop of `extract_technology` (pdf_extractor.py
lines 1580-1592). -/
def dataWordCount (words : List PWord) (xmax ymax : Rat) : Nat :=
  words.foldl (fun acc w =>
    if w.x0 > xmax || w.top > ymax then acc
    else
      let t := w.text.toUpper
      if t = "D" || t = "DATA" then (if w.x1 - w.x0 < 25 then acc + 1 else acc)
      else if t = "2C" || t = "4C" || t = "C2" || t = "C4" then acc + firstCharJacks t
      else acc) 0

/-- `extract_technology` (pdf_extractor.py lines 1489-1612).  A page index past
the end returns the default mapping (line 1519); otherwise pattern counts,
word counts, multi-floor division and the floor-box adjustment are applied. -/
def extract_technology (pages : List PdfPage) (page_num : Nat) (floor_count : Nat) :
    List (String × Nat) :=
  if h : page_num < pages.length then
    let page := pages.get ⟨page_num, h⟩
    let xmax := page.width * (85 / 100)
    let ymax := page.height * (90 / 100)
    let total_jacks := (TECH_JACK_PATTERNS.map
      (fun pj => countPattern true pj.1 page.text * pj.2)).sum
    let data_words := dataWordCount page.words xmax ymax
    let raw_jacks := max total_jacks data_words
    let adjusted := if 1 < floor_count then raw_jacks / floor_count else raw_jacks
    let fb_count := countPattern false (litAtoms "FB") page.text
    let adjusted2 :=
      if 0 < fb_count then
        adjusted + (⌊(fb_count : Rat) * (4 / 10) / (floor_count : Rat)⌋).toNat * 4
      else adjusted
    [("Cat 6 Jack", adjusted2), ("Floor Box", 0)]
  else [("Cat 6 Jack", 0), ("Floor Box", 0)]

/-! ## Device counts (src/takeoff_system/models.py) -/

/-- `DeviceCounts` (models.py lines 36-49): six per-category count dicts. -/
structure DeviceCounts where
  fixtures : List (String × Nat)
  controls : List (String × Nat)
  power : List (String × Nat)
  fire_alarm : List (String × Nat)
  technology : List (String × Nat)
  demo : List (String × Nat)

/-- `DeviceCounts.merge` (models.py lines 51-58): per-key summation in each of
the six categories. -/
def DeviceCounts.merge (a b : DeviceCounts) : DeviceCounts :=
  ⟨mergeDict a.fixtures b.fixtures, mergeDict a.controls b.controls,
   mergeDict a.power b.power, mergeDict a.fire_alarm b.fire_alarm,
   mergeDict a.technology b.technology, mergeDict a.demo b.demo⟩

/-- The empty `DeviceCounts()`. -/
def emptyCounts : DeviceCounts := ⟨[], [], [], [], [], []⟩

/-- Reduce a list of snapshots by `merge`, as the pipeline does across sheets. -/
def mergeList (l : List DeviceCounts) : DeviceCounts :=
  l.foldl DeviceCounts.merge emptyCounts

/-- A dict has pairwise-distinct keys — true of every Python dict. -/
def dictKeysNodup (d : List (String × Nat)) : Prop := (d.map Prod.fst).Nodup

/-- All six dicts of a snapshot have distinct keys. -/
def goodCounts (dc : DeviceCounts) : Prop :=
  dictKeysNodup dc.fixtures ∧ dictKeysNodup dc.controls ∧ dictKeysNodup dc.power ∧
  dictKeysNodup dc.fire_alarm ∧ dictKeysNodup dc.technology ∧ dictKeysNodup dc.demo

/-- Pointwise equality of two snapshots: same per-key counts in every category. -/
def sameCounts (x y : DeviceCounts) : Prop :=
  ∀ k, getCount x.fixtures k = getCount y.fixtures k ∧
    getCount x.controls k = getCount y.controls k ∧
    getCount x.power k = getCount y.power k ∧
    getCount x.fire_alarm k = getCount y.fire_alarm k ∧
    getCount x.technology k = getCount y.technology k ∧
    getCount x.demo k = getCount y.demo k

/-! ## Helper lemmas -/

theorem natCeilDivEq (c fc : Nat) (h : 1 ≤ fc) :
    ⌈(c : Rat) / (fc : Rat)⌉₊ = (c + fc - 1) / fc := by
  have hfc : (0 : Rat) < (fc : Rat) := by exact_mod_cast h
  apply le_antisymm
  · rw [Nat.ceil_le, div_le_iff₀ hfc]
    have hq : c ≤ (c + fc - 1) / fc * fc := by
      have h2 := Nat.div_add_mod (c + fc - 1) fc
      rw [Nat.mul_comm] at h2
      have h3 : (c + fc - 1) % fc < fc := Nat.mod_lt _ h
      omega
    exact_mod_cast hq
  · rcases Nat.eq_zero_or_pos c with hc | hc
    · subst hc
      simp [Nat.div_eq_of_lt (by omega : fc - 1 < fc)]
    · have hqle : (c + fc - 1) / fc * fc ≤ c + fc - 1 := Nat.div_mul_le_self _ _
      have hq1 : 1 ≤ (c + fc - 1) / fc := (Nat.one_le_div_iff h).2 (by omega)
      have hlt : ((c + fc - 1) / fc - 1) < ⌈(c : Rat) / (fc : Rat)⌉₊ := by
        rw [Nat.lt_ceil, lt_div_iff₀ hfc]
        have hmul : ((c + fc - 1) / fc - 1) * fc < c := by
          have e : ((c + fc - 1) / fc - 1) * fc = (c + fc - 1) / fc * fc - fc :=
            Nat.sub_mul _ _ _ ▸ (by rw [Nat.one_mul])
          set m := (c + fc - 1) / fc * fc with hm
          omega
        exact_mod_cast hmul
      omega

theorem scoreItem_item (i : String) (e a : Nat) : (scoreItem i e a).item = i := rfl

theorem scoreItem_expected (i : String) (e a : Nat) : (scoreItem i e a).expected = e := rfl

theorem scoreItem_actual (i : String) (e a : Nat) : (scoreItem i e a).actual = a := rfl

theorem scoreItem_difference (i : String) (e a : Nat) :
    (scoreItem i e a).difference = (a : Int) - (e : Int) := rfl

theorem scoreItem_accuracy_pct (i : String) (e a : Nat) :
    (scoreItem i e a).accuracy_pct = round1 (scoreAccuracy e a) := rfl

theorem scoreItem_status (i : String) (e a : Nat) :
    (scoreItem i e a).status =
      (if a = e then "exact"
       else if ((a : Int) - (e : Int)).natAbs ≤ 2 then "close"
       else if 80 ≤ scoreAccuracy e a then "acceptable"
       else "miss") := rfl

theorem validate_counts_mem {g gt : List (String × Nat)} {r : ValidationResult}
    (hr : r ∈ validate_counts g gt) :
    r = scoreItem r.item ((gt.lookup r.item).getD 0) ((g.lookup r.item).getD 0) := by
  obtain ⟨item, hmem, rfl⟩ := List.mem_map.1 hr
  rfl

/-! ## Claim theorems -/

/-- C2: for all non-negative integer inputs, `derive_power_packs` returns
`int((ceiling_sensors + wall_sensors) * 0.74)` and `derive_cable_and_jhooks`
returns `(data_jacks * 10, (data_jacks * 10) // 4)`; in particular 16 ceiling
and 3 wall sensors yield 14 power packs, and 92 data jacks yield 920 ft of
cable and 230 J-hooks. -/
theorem c2_power_packs_cable_jhooks :
    (∀ ceiling_sensors wall_sensors : Nat,
      derive_power_packs ceiling_sensors wall_sensors =
        ⌊((ceiling_sensors + wall_sensors : Nat) : Rat) * (74 / 100)⌋) ∧
    derive_power_packs 16 3 = 14 ∧
    (∀ data_jacks : Nat,
      derive_cable_and_jhooks data_jacks = (data_jacks * 10, data_jacks * 10 / 4)) ∧
    derive_cable_and_jhooks 92 = (920, 230) := by
  refine ⟨fun c w => rfl, by norm_num [derive_power_packs], fun d => rfl, by decide⟩

/-- C3: `classify_sheet_number` derives the role purely from the numeric block
after the letter prefix: 100 is demolition, `[200,600)` new work, below 100
legend, `[600,800)` schedule, everything else reference; and any two codes with
the same numeric block classify identically. -/
theorem c3_classify_sheet_number_ranges :
    ∀ (s : String) (num : Int), 2 ≤ s.data.length → parsePyInt s.data.tail = some num →
      (classify_sheet_number s = classifyNum num ∧
       (num = 100 → classify_sheet_number s = SheetType.DEMO) ∧
       (200 ≤ num ∧ num < 600 → classify_sheet_number s = SheetType.NEW) ∧
       (num < 100 → classify_sheet_number s = SheetType.LEGEND) ∧
       (600 ≤ num ∧ num < 800 → classify_sheet_number s = SheetType.SCHEDULE) ∧
       ((100 < num ∧ num < 200) ∨ 800 ≤ num → classify_sheet_number s = SheetType.REFERENCE) ∧
       (∀ s2 : String, 2 ≤ s2.data.length → parsePyInt s2.data.tail = some num →
         classify_sheet_number s2 = classify_sheet_number s)) := by
  intro s num hlen hparse
  have hcls : classify_sheet_number s = classifyNum num := by
    unfold classify_sheet_number
    rw [if_neg (by omega), hparse]
  refine ⟨hcls, ?_, ?_, ?_, ?_, ?_, ?_⟩
  · intro h
    rw [hcls]; unfold classifyNum; split_ifs <;> first | rfl | omega
  · intro h
    rw [hcls]; unfold classifyNum; split_ifs <;> first | rfl | omega
  · intro h
    rw [hcls]; unfold classifyNum; split_ifs <;> first | rfl | omega
  · intro h
    rw [hcls]; unfold classifyNum; split_ifs <;> first | rfl | omega
  · intro h
    rw [hcls]; unfold classifyNum; split_ifs <;> first | rfl | omega
  · intro s2 h2len h2parse
    have hcls2 : classify_sheet_number s2 = classifyNum num := by
      unfold classify_sheet_number
      rw [if_neg (by omega), h2parse]
    rw [hcls2, hcls]

/-- Witness for C3 at the concrete sheet codes E100 and T100: both parse to
numeric block 100 and classify as demolition. -/
theorem c3_classify_sheet_number_ranges_witness :
    classify_sheet_number "E100" = SheetType.DEMO ∧
    classify_sheet_number "T100" = classify_sheet_number "E100" := by
  have h := c3_classify_sheet_number_ranges "E100" 100 (by decide) (by decide)
  exact ⟨h.2.1 rfl, h.2.2.2.2.2.2 "T100" (by decide) (by decide)⟩

/-- C4: multi-floor deduplication is floor division `count // floors` for
non-floor-box families (demolition keynotes, and the halving in
`extract_controls`) and ceiling division `(count + floors - 1) // floors` for
floor boxes; for every count and floor multiplicity at least 1 the floor-box
result is the ceiling of `count / floors` and the other results are the floor;
in particular raw count 5 with multiplicity 2 gives 3 for floor boxes and 2
otherwise. -/
theorem c4_multifloor_dedup_floor_ceil :
    (∀ count floor_count : Nat, 1 ≤ floor_count →
      demoItemDedup count floor_count = count / floor_count ∧
      demoItemDedup count floor_count = ⌊(count : Rat) / (floor_count : Rat)⌋₊ ∧
      floorBoxDedup count floor_count = ⌈(count : Rat) / (floor_count : Rat)⌉₊) ∧
    (∀ count : Nat, controlsDedup count = ⌊(count : Rat) / ((2 : Nat) : Rat)⌋₊) ∧
    demoItemDedup 5 2 = 2 ∧ floorBoxDedup 5 2 = 3 := by
  refine ⟨fun c fc h => ⟨?_, ?_, ?_⟩, fun c => ?_, by decide, by decide⟩
  · unfold demoItemDedup
    split_ifs with h1
    · rfl
    · have : fc = 1 := by omega
      rw [this, Nat.div_one]
  · rw [Nat.floor_div_eq_div]
    unfold demoItemDedup
    split_ifs with h1
    · rfl
    · have : fc = 1 := by omega
      rw [this, Nat.div_one]
  · rw [natCeilDivEq c fc h]; rfl
  · rw [Nat.floor_div_eq_div]; rfl

/-- Witness for C4 at count 5 and floor multiplicity 2. -/
theorem c4_multifloor_dedup_floor_ceil_witness :
    demoItemDedup 5 2 = ⌊(5 : Rat) / ((2 : Nat) : Rat)⌋₊ ∧
    floorBoxDedup 5 2 = ⌈(5 : Rat) / ((2 : Nat) : Rat)⌉₊ := by
  have h := c4_multifloor_dedup_floor_ceil.1 5 2 (by decide)
  exact ⟨by exact_mod_cast h.2.1, by exact_mod_cast h.2.2⟩

theorem round1_intCast (n : Int) : round1 (n : Rat) = n := by
  unfold round1 pyRoundHalfEven
  have h1 : (10 : Rat) * (n : Rat) = ((10 * n : Int) : Rat) := by push_cast; ring
  rw [h1, Int.floor_intCast, round_intCast]
  norm_num

theorem pyRoundHalfEven_le {q : Rat} {b : Int} (h : q ≤ (b : Rat)) :
    pyRoundHalfEven q ≤ b := by
  unfold pyRoundHalfEven
  split_ifs with h1 h2
  · exact (Int.floor_le_floor h).trans_eq (Int.floor_intCast b)
  · have hq : q = (⌊q⌋ : Rat) + 1 / 2 := by linarith
    have hlt : ((⌊q⌋ : Int) : Rat) < (b : Rat) := by rw [hq] at h; linarith
    have : ⌊q⌋ < b := by exact_mod_cast hlt
    omega
  · rw [round_eq]
    have hb : ⌊(b : Rat) + 1 / 2⌋ = b := by
      rw [add_comm, Int.floor_add_int]
      norm_num
    calc ⌊q + 1 / 2⌋ ≤ ⌊(b : Rat) + 1 / 2⌋ := Int.floor_le_floor (by linarith)
      _ = b := hb

theorem pyRoundHalfEven_ge {q : Rat} {a : Int} (h : (a : Rat) ≤ q) :
    a ≤ pyRoundHalfEven q := by
  have hfl : a ≤ ⌊q⌋ := Int.le_floor.2 h
  unfold pyRoundHalfEven
  split_ifs with h1 h2
  · exact hfl
  · omega
  · rw [round_eq]
    have : ⌊q⌋ ≤ ⌊q + 1 / 2⌋ := Int.floor_le_floor (by linarith)
    omega

theorem scoreAccuracy_nonneg (e a : Nat) : 0 ≤ scoreAccuracy e a := by
  unfold scoreAccuracy
  split_ifs <;> first | norm_num | exact le_max_left 0 _

theorem scoreAccuracy_le_100 (e a : Nat) : scoreAccuracy e a ≤ 100 := by
  unfold scoreAccuracy
  split_ifs with h1 h2
  · norm_num
  · norm_num
  · apply max_le (by norm_num)
    have ht : (0 : Rat) ≤ ((((a : Int) - (e : Int)).natAbs : Rat) / (e : Rat)) := by positivity
    have := mul_le_mul_of_nonneg_right
      (sub_le_self (1 : Rat) ht) (by norm_num : (0 : Rat) ≤ 100)
    simpa using this

/-- The eight per-record scoring facts, stated over `scoreItem` directly. -/
theorem scoreItem_spec (i : String) (e a : Nat) :
    (scoreItem i e a).difference =
      ((scoreItem i e a).actual : Int) - ((scoreItem i e a).expected : Int) ∧
    ((scoreItem i e a).expected = 0 → (scoreItem i e a).actual = 0 →
      (scoreItem i e a).accuracy_pct = 100) ∧
    ((scoreItem i e a).expected = 0 → (scoreItem i e a).actual ≠ 0 →
      (scoreItem i e a).accuracy_pct = 0) ∧
    ((scoreItem i e a).expected ≠ 0 → (scoreItem i e a).accuracy_pct =
      round1 (max 0 ((1 - (((((scoreItem i e a).actual : Int) -
        ((scoreItem i e a).expected : Int)).natAbs : Rat) /
        ((scoreItem i e a).expected : Rat))) * 100))) ∧
    ((scoreItem i e a).status = "exact" ↔ (scoreItem i e a).difference = 0) ∧
    ((scoreItem i e a).status = "close" ↔
      ((scoreItem i e a).difference ≠ 0 ∧ (scoreItem i e a).difference.natAbs ≤ 2)) ∧
    ((scoreItem i e a).status = "acceptable" ↔
      ((scoreItem i e a).difference ≠ 0 ∧ 2 < (scoreItem i e a).difference.natAbs ∧
        80 ≤ scoreAccuracy (scoreItem i e a).expected (scoreItem i e a).actual)) ∧
    ((scoreItem i e a).status = "miss" ↔
      ((scoreItem i e a).difference ≠ 0 ∧ 2 < (scoreItem i e a).difference.natAbs ∧
        scoreAccuracy (scoreItem i e a).expected (scoreItem i e a).actual < 80)) := by
  simp only [scoreItem_item, scoreItem_expected, scoreItem_actual, scoreItem_difference,
    scoreItem_accuracy_pct, scoreItem_status]
  have hd : ((a : Int) - (e : Int) = 0) ↔ a = e := by omega
  refine ⟨by trivial, ?_, ?_, ?_, ?_, ?_, ?_, ?_⟩
  · intro h1 h2
    subst h1; subst h2
    simp only [scoreAccuracy, if_pos rfl]
    simpa using round1_intCast 100
  · intro h1 h2
    subst h1
    simp only [scoreAccuracy, if_pos rfl, if_neg h2]
    simpa using round1_intCast 0
  · intro h1
    rw [scoreAccuracy, if_neg h1]
  · by_cases h1 : a = e
    · simp [h1, hd]
    · by_cases h2 : ((a : Int) - (e : Int)).natAbs ≤ 2
      · simp [h1, h2, hd]
      · by_cases h3 : 80 ≤ scoreAccuracy e a <;> simp [h1, h2, h3, hd]
  · by_cases h1 : a = e
    · simp [h1, hd]
    · by_cases h2 : ((a : Int) - (e : Int)).natAbs ≤ 2
      · simp [h1, h2, hd]
      · by_cases h3 : 80 ≤ scoreAccuracy e a <;> simp [h1, h2, h3, hd]
  · by_cases h1 : a = e
    · simp [h1, hd]
    · by_cases h2 : ((a : Int) - (e : Int)).natAbs ≤ 2
      · simp [h1, h2, hd]
      · by_cases h3 : 80 ≤ scoreAccuracy e a <;> simp [h1, h2, h3, hd, not_le.1 h2]
  · by_cases h1 : a = e
    · simp [h1, hd]
    · by_cases h2 : ((a : Int) - (e : Int)).natAbs ≤ 2
      · simp [h1, h2, hd]
      · by_cases h3 : 80 ≤ scoreAccuracy e a
        · simp [h1, h2, h3, hd, not_lt.2 h3]
        · simp [h1, h2, h3, hd, not_le.1 h2, not_le.1 h3]

/-- C1 (amended): for every pair of count maps and every compared key,
`validate_counts` computes `difference = actual - expected`; the accuracy value
is 100 if expected and actual are both zero, 0 if expected is zero but actual
is not, and otherwise `max(0, (1 - |difference|/expected) * 100)`; the stored
`accuracy_pct` is that accuracy rounded to one decimal place (100 and 0 are
stored unchanged); status is `exact` iff difference is 0, else `close` iff
`|difference| <= 2`, else `acceptable` iff accuracy >= 80, else `miss`.
Concretely: 92/92 gives `exact` with accuracy 100; 92/90 gives difference -2
and `close`; 23/0 gives `miss` with accuracy 0; 0/0 gives `exact` with 100. -/
theorem c1_validate_counts_scoring :
    (∀ (g gt : List (String × Nat)) (r : ValidationResult), r ∈ validate_counts g gt →
      r.difference = (r.actual : Int) - (r.expected : Int) ∧
      (r.expected = 0 → r.actual = 0 → r.accuracy_pct = 100) ∧
      (r.expected = 0 → r.actual ≠ 0 → r.accuracy_pct = 0) ∧
      (r.expected ≠ 0 → r.accuracy_pct =
        round1 (max 0 ((1 - ((((r.actual : Int) - (r.expected : Int)).natAbs : Rat) /
          (r.expected : Rat))) * 100))) ∧
      (r.status = "exact" ↔ r.difference = 0) ∧
      (r.status = "close" ↔ (r.difference ≠ 0 ∧ r.difference.natAbs ≤ 2)) ∧
      (r.status = "acceptable" ↔
        (r.difference ≠ 0 ∧ 2 < r.difference.natAbs ∧ 80 ≤ scoreAccuracy r.expected r.actual)) ∧
      (r.status = "miss" ↔
        (r.difference ≠ 0 ∧ 2 < r.difference.natAbs ∧ scoreAccuracy r.expected r.actual < 80))) ∧
    (scoreItem "Cat 6 Jack" 92 92).status = "exact" ∧
    (scoreItem "Cat 6 Jack" 92 92).accuracy_pct = 100 ∧
    (scoreItem "Cat 6 Jack" 92 90).difference = -2 ∧
    (scoreItem "Cat 6 Jack" 92 90).status = "close" ∧
    (scoreItem "Demo Exit" 23 0).status = "miss" ∧
    (scoreItem "Demo Exit" 23 0).accuracy_pct = 0 ∧
    (scoreItem "Power Pack" 0 0).status = "exact" ∧
    (scoreItem "Power Pack" 0 0).accuracy_pct = 100 := by
  refine ⟨?_, by decide, ?_, by decide, by decide,
    by norm_num [scoreItem, scoreAccuracy], ?_, by decide, ?_⟩
  · intro g gt r hr
    obtain ⟨item, hitem, rfl⟩ := List.mem_map.1 hr
    exact scoreItem_spec item _ _
  · norm_num [scoreItem, scoreAccuracy, round1, pyRoundHalfEven, round_eq]
  · norm_num [scoreItem, scoreAccuracy, round1, pyRoundHalfEven, round_eq]
  · norm_num [scoreItem, scoreAccuracy, round1, pyRoundHalfEven, round_eq]

/-- Witness for C1: the 92/90 record produced by `validate_counts` on concrete
one-item maps satisfies the scoring facts. -/
theorem c1_validate_counts_scoring_witness :
    (scoreItem "A" 92 90).difference =
      ((scoreItem "A" 92 90).actual : Int) - ((scoreItem "A" 92 90).expected : Int) ∧
    (scoreItem "A" 92 90).status = "close" := by
  have hm : scoreItem "A" 92 90 ∈ validate_counts [("A", 90)] [("A", 92)] := by
    simp [validate_counts, List.dedup]
  have h := c1_validate_counts_scoring.1 [("A", 90)] [("A", 92)] (scoreItem "A" 92 90) hm
  exact ⟨h.1, (h.2.2.2.2.2.1).mpr ⟨by decide, by decide⟩⟩

/-- C1 counterexample: with expected 3 and actual 2 the stored `accuracy_pct`
is 66.7 (the accuracy rounded to one decimal place), not the raw value
`max(0, (1 - |difference|/expected) * 100) = 200/3` the claim states. -/
theorem c1_accuracy_pct_is_rounded :
    validate_counts [("A", 2)] [("A", 3)] = [scoreItem "A" 3 2] ∧
    (scoreItem "A" 3 2).accuracy_pct = 667 / 10 ∧
    (scoreItem "A" 3 2).accuracy_pct ≠
      max 0 ((1 - ((((2 : Int) - (3 : Int)).natAbs : Rat) / ((3 : Nat) : Rat))) * 100) := by
  have hval : (scoreItem "A" 3 2).accuracy_pct = 667 / 10 := by
    norm_num [scoreItem, scoreAccuracy, round1, pyRoundHalfEven, round_eq]
  refine ⟨by simp [validate_counts, List.dedup], hval, ?_⟩
  rw [hval, max_eq_right (by norm_num)]
  norm_num

/-- C6 (amended): `validate_counts` produces exactly one record per key of the
union of the two mappings; a reference item with positive expected count absent
from the generated side scores with actual 0, difference `-expected` and
accuracy 0, and its status is `miss` when expected > 2 (for expected 1 or 2 the
`|difference| <= 2` rule classifies it `close` instead). -/
theorem c6_validate_counts_union :
    ∀ (g gt : List (String × Nat)),
      (validate_counts g gt).map ValidationResult.item =
        (g.map Prod.fst ++ gt.map Prod.fst).dedup ∧
      ((validate_counts g gt).map ValidationResult.item).Nodup ∧
      (∀ k, (∃ r ∈ validate_counts g gt, r.item = k) ↔
        (k ∈ g.map Prod.fst ∨ k ∈ gt.map Prod.fst)) ∧
      (∀ r ∈ validate_counts g gt, g.lookup r.item = none → 0 < r.expected →
        r.actual = 0 ∧ r.difference = -(r.expected : Int) ∧
        scoreAccuracy r.expected r.actual = 0 ∧
        (2 < r.expected → r.status = "miss") ∧
        (r.expected ≤ 2 → r.status = "close")) := by
  intro g gt
  have hmap : (validate_counts g gt).map ValidationResult.item =
      (g.map Prod.fst ++ gt.map Prod.fst).dedup := by
    unfold validate_counts
    rw [List.map_map]
    simp [Function.comp_def, scoreItem]
  refine ⟨hmap, ?_, ?_, ?_⟩
  · rw [hmap]; exact List.nodup_dedup _
  · intro k
    constructor
    · rintro ⟨r, hr, rfl⟩
      have hmem : r.item ∈ (validate_counts g gt).map ValidationResult.item :=
        List.mem_map_of_mem _ hr
      rw [hmap, List.mem_dedup, List.mem_append] at hmem
      exact hmem
    · intro hk
      have hmem : k ∈ (validate_counts g gt).map ValidationResult.item := by
        rw [hmap, List.mem_dedup, List.mem_append]; exact hk
      obtain ⟨r, hr, hkr⟩ := List.mem_map.1 hmem
      exact ⟨r, hr, hkr⟩
  · intro r hr hnone hpos
    obtain ⟨item, hitem, rfl⟩ := List.mem_map.1 hr
    simp only [scoreItem_item] at hnone
    simp only [scoreItem_expected] at hpos
    have ha : (g.lookup item).getD 0 = 0 := by rw [hnone]; rfl
    set e := (gt.lookup item).getD 0 with he
    have hacc0 : scoreAccuracy e 0 = 0 := by
      rw [scoreAccuracy, if_neg (by omega)]
      have h1 : ((((0 : Nat) : Int) - (e : Int)).natAbs : Rat) / (e : Rat) = 1 := by
        rw [show (((0 : Nat) : Int) - (e : Int)).natAbs = e from by omega]
        exact div_self (by exact_mod_cast hpos.ne')
      rw [h1]
      norm_num
    refine ⟨by rw [scoreItem_actual]; exact ha, ?_, ?_, ?_, ?_⟩
    · rw [scoreItem_difference, scoreItem_expected, ha]
      push_cast
      ring
    · rw [scoreItem_expected, scoreItem_actual, ha]
      exact hacc0
    · intro h2
      rw [scoreItem_expected] at h2
      rw [scoreItem_status, ha, if_neg (by omega), if_neg (by omega),
        if_neg (by rw [hacc0]; norm_num)]
    · intro h2
      rw [scoreItem_expected] at h2
      rw [scoreItem_status, ha, if_neg (by omega), if_pos (by omega)]

/-- Witness for C6 at generated `{}` and reference `{A: 5}`: the absent item
scores as a miss. -/
theorem c6_validate_counts_union_witness :
    (validate_counts [] [("A", 5)]).map ValidationResult.item = ["A"] ∧
    (scoreItem "A" 5 0).status = "miss" := by
  have h := c6_validate_counts_union [] [("A", 5)]
  constructor
  · rw [h.1]; decide
  · have hm : scoreItem "A" 5 0 ∈ validate_counts [] [("A", 5)] := by
      simp [validate_counts, List.dedup]
    exact (h.2.2.2 (scoreItem "A" 5 0) hm rfl (by decide)).2.2.2.1 (by decide)

/-- C6 counterexample: the reference item `A` has positive expected count 1 and
is absent from the generated side, yet its record's status is `close`, not
`miss` — the `|difference| <= 2` rule fires first. -/
theorem c6_absent_item_close_counterexample :
    (validate_counts [] [("A", 1)]).map ValidationResult.status = ["close"] ∧
    ("close" : String) ≠ "miss" := by
  constructor
  · simp [validate_counts, List.dedup]
    decide
  · decide

/-- C10: every record produced by `validate_counts` has `accuracy_pct` in the
closed interval [0, 100]: the `max(0, ...)` clamp bounds the accuracy below,
`|difference| >= 0` bounds it above, and rounding to one decimal place
preserves both bounds. -/
theorem c10_accuracy_pct_bounds :
    ∀ (g gt : List (String × Nat)) (r : ValidationResult), r ∈ validate_counts g gt →
      0 ≤ r.accuracy_pct ∧ r.accuracy_pct ≤ 100 := by
  intro g gt r hr
  obtain ⟨item, hitem, rfl⟩ := List.mem_map.1 hr
  set e := (gt.lookup item).getD 0
  set a := (g.lookup item).getD 0
  rw [scoreItem_accuracy_pct]
  have h0 : (0 : Rat) ≤ scoreAccuracy e a := scoreAccuracy_nonneg e a
  have h100 : scoreAccuracy e a ≤ 100 := scoreAccuracy_le_100 e a
  have hR0 : (0 : Int) ≤ pyRoundHalfEven (10 * scoreAccuracy e a) :=
    pyRoundHalfEven_ge (by push_cast; linarith)
  have hR1 : pyRoundHalfEven (10 * scoreAccuracy e a) ≤ 1000 :=
    pyRoundHalfEven_le (by push_cast; linarith)
  unfold round1
  constructor
  · apply div_nonneg _ (by norm_num)
    exact_mod_cast hR0
  · rw [div_le_iff₀ (by norm_num : (0 : Rat) < 10)]
    calc ((pyRoundHalfEven (10 * scoreAccuracy e a) : Rat)) ≤ ((1000 : Int) : Rat) := by
          exact_mod_cast hR1
      _ = 100 * 10 := by norm_num

/-- Witness for C10 at a concrete comparison where actual greatly exceeds
expected. -/
theorem c10_accuracy_pct_bounds_witness :
    0 ≤ (scoreItem "A" 1 50).accuracy_pct ∧ (scoreItem "A" 1 50).accuracy_pct ≤ 100 := by
  have hm : scoreItem "A" 1 50 ∈ validate_counts [("A", 50)] [("A", 1)] := by
    simp [validate_counts, List.dedup]
  exact c10_accuracy_pct_bounds [("A", 50)] [("A", 1)] (scoreItem "A" 1 50) hm

theorem matchLit_length :
    ∀ (ps input rest : List Char), matchLit ps input = some rest →
      rest.length + ps.length = input.length := by
  intro ps
  induction ps with
  | nil =>
    intro input rest h
    simp only [matchLit, Option.some.injEq] at h
    subst h
    simp
  | cons p ps ih =>
    intro input rest h
    cases input with
    | nil => simp [matchLit] at h
    | cons c cs =>
      simp only [matchLit] at h
      by_cases hc : c.toUpper = p
      · rw [if_pos hc] at h
        have := ih cs rest h
        simp only [List.length_cons]
        omega
      · rw [if_neg hc] at h
        exact absurd h (by simp)

theorem tryAlternatives_length :
    ∀ (alts : List String) (input : List Char) (p : String) (rest : List Char),
      (∀ q ∈ alts, q.data ≠ []) → tryAlternatives alts input = some (p, rest) →
      rest.length < input.length := by
  intro alts
  induction alts with
  | nil => intro input p rest _ h; simp [tryAlternatives] at h
  | cons q qs ih =>
    intro input p rest hne h
    simp only [tryAlternatives] at h
    cases hm : matchLit q.data input with
    | some r2 =>
      rw [hm] at h
      simp only [Option.some.injEq, Prod.mk.injEq] at h
      obtain ⟨rfl, rfl⟩ := h
      have hl := matchLit_length q.data input r2 hm
      have hq : q.data ≠ [] := hne q (by simp)
      have : 0 < q.data.length := List.length_pos.2 hq
      omega
    | none =>
      rw [hm] at h
      exact ih input p rest (fun r hr => hne r (by simp [hr])) h

theorem doubled_alternatives_nonempty :
    ∀ q ∈ DOUBLED_FIXTURE_ALTERNATIVES, q.data ≠ [] := by decide

theorem scanFixtures_fuel :
    ∀ (f1 : Nat) (l : List Char) (f2 : Nat), l.length ≤ f1 → l.length ≤ f2 →
      scanFixtures f1 l = scanFixtures f2 l := by
  intro f1
  induction f1 with
  | zero =>
    intro l f2 h1 h2
    have hl : l = [] := List.length_eq_zero.1 (Nat.le_zero.1 h1)
    subst hl
    cases f2 <;> simp [scanFixtures]
  | succ f ih =>
    intro l f2 h1 h2
    cases l with
    | nil => cases f2 <;> simp [scanFixtures]
    | cons c cs =>
      cases f2 with
      | zero => exact absurd h2 (by simp)
      | succ f2' =>
        simp only [scanFixtures]
        cases hm : tryAlternatives DOUBLED_FIXTURE_ALTERNATIVES (c :: cs) with
        | some pr =>
          obtain ⟨p, rest⟩ := pr
          have hlt : rest.length < (c :: cs).length :=
            tryAlternatives_length _ _ _ _ doubled_alternatives_nonempty hm
          simp only [List.length_cons] at hlt h1 h2
          show p :: scanFixtures f rest = p :: scanFixtures f2' rest
          rw [ih rest f2' (by omega) (by omega)]
        | none =>
          simp only [List.length_cons] at h1 h2
          show scanFixtures f cs = scanFixtures f2' cs
          exact ih cs f2' (by omega) (by omega)

theorem fixtureMatches_ff44ee (rest : List Char) :
    fixtureMatches ("FF44EE".data ++ rest) = "FF44EE" :: fixtureMatches rest := by
  unfold fixtureMatches
  have hlen : ("FF44EE".data ++ rest).length = rest.length + 6 := by
    simp
  rw [hlen]
  have step : scanFixtures (rest.length + 6) ("FF44EE".data ++ rest) =
      "FF44EE" :: scanFixtures (rest.length + 5) rest := rfl
  rw [step, scanFixtures_fuel (rest.length + 5) rest rest.length (by omega) (le_refl _)]

theorem fixtureMatches_ff77ee (rest : List Char) :
    fixtureMatches ("FF77EE".data ++ rest) = "FF77EE" :: fixtureMatches rest := by
  unfold fixtureMatches
  have hlen : ("FF77EE".data ++ rest).length = rest.length + 6 := by
    simp
  rw [hlen]
  have step : scanFixtures (rest.length + 6) ("FF77EE".data ++ rest) =
      "FF77EE" :: scanFixtures (rest.length + 5) rest := rfl
  rw [step, scanFixtures_fuel (rest.length + 5) rest rest.length (by omega) (le_refl _)]

theorem getCount_setEntry (d : List (String × Nat)) (k : String) (v : Nat) (k2 : String) :
    getCount (setEntry d k v) k2 = if k = k2 then v else getCount d k2 := by
  induction d with
  | nil =>
    simp only [setEntry]
    by_cases h : k = k2
    · subst h
      simp [getCount, List.lookup]
    · simp [getCount, List.lookup, h,
        show (k2 == k) = false from beq_eq_false_iff_ne.2 (Ne.symm h)]
  | cons hd tl ih =>
    obtain ⟨k0, v0⟩ := hd
    simp only [setEntry]
    by_cases h0 : k0 = k
    · rw [if_pos h0]
      by_cases h : k = k2
      · subst h
        simp [getCount, List.lookup]
      · subst h0
        simp [getCount, List.lookup,
          show (k2 == k0) = false from beq_eq_false_iff_ne.2 (Ne.symm h), h]
    · rw [if_neg h0]
      by_cases h : k0 = k2
      · subst h
        have hk : k ≠ k0 := fun he => h0 he.symm
        simp [getCount, List.lookup, if_neg hk, hk]
      · simp only [getCount, List.lookup,
          show (k2 == k0) = false from beq_eq_false_iff_ne.2 (Ne.symm h)]
        exact ih

theorem getCount_fixtureTally_fold :
    ∀ (ms : List String) (acc : List (String × Nat)) (k : String),
      getCount (ms.foldl (fun acc m =>
        match lookupFixture m with
        | some ft => setEntry acc ft (getCount acc ft + 1)
        | none => acc) acc) k
      = getCount acc k + (ms.filterMap lookupFixture).count k := by
  intro ms
  induction ms with
  | nil => intro acc k; simp
  | cons m ms ih =>
    intro acc k
    simp only [List.foldl_cons, List.filterMap_cons]
    cases hm : lookupFixture m with
    | some ft =>
      dsimp only
      rw [ih, getCount_setEntry]
      by_cases hk : ft = k
      · subst hk
        simp [List.count_cons]
        omega
      · rw [if_neg hk]
        simp [List.count_cons, hk]
    | none =>
      dsimp only
      exact ih acc k

theorem getCount_fixtureTally (ms : List String) (k : String) :
    getCount (fixtureTally ms) k = (ms.filterMap lookupFixture).count k := by
  have h := getCount_fixtureTally_fold ms [] k
  have h0 : getCount [] k = 0 := rfl
  rw [fixtureTally, h, h0, Nat.zero_add]

/-- C5: longest-pattern-first precedence of the doubled-fixture regex.  Any
text beginning with the 6-character token `FF44EE` (resp. `FF77EE`) is matched
whole: the scan emits the 6-character match and resumes after it, so the token
is tallied once under `F4E` (resp. `F7E`) and never under the 4-character
sub-pattern's category `F4` (resp. `F7`); on a one-page document holding just
the token, `extract_fixture_counts` returns exactly the 6-character category. -/
theorem c5_longest_match_precedence :
    (∀ rest : List Char,
      fixtureMatches ("FF44EE".data ++ rest) = "FF44EE" :: fixtureMatches rest ∧
      fixtureMatches ("FF77EE".data ++ rest) = "FF77EE" :: fixtureMatches rest ∧
      getCount (fixtureCountsOfText ("FF44EE".data ++ rest)) "F4" =
        getCount (fixtureCountsOfText rest) "F4" ∧
      getCount (fixtureCountsOfText ("FF44EE".data ++ rest)) "F4E" =
        getCount (fixtureCountsOfText rest) "F4E" + 1 ∧
      getCount (fixtureCountsOfText ("FF77EE".data ++ rest)) "F7" =
        getCount (fixtureCountsOfText rest) "F7" ∧
      getCount (fixtureCountsOfText ("FF77EE".data ++ rest)) "F7E" =
        getCount (fixtureCountsOfText rest) "F7E" + 1) ∧
    extract_fixture_counts ["FF44EE".data] 0 = Except.ok [("F4E", 1)] ∧
    extract_fixture_counts ["FF77EE".data] 0 = Except.ok [("F7E", 1)] := by
  refine ⟨?_, by rfl, by rfl⟩
  intro rest
  have h44 := fixtureMatches_ff44ee rest
  have h77 := fixtureMatches_ff77ee rest
  have l44 : lookupFixture "FF44EE" = some "F4E" := rfl
  have l77 : lookupFixture "FF77EE" = some "F7E" := rfl
  refine ⟨h44, h77, ?_, ?_, ?_, ?_⟩
  · rw [fixtureCountsOfText, getCount_fixtureTally, h44, List.filterMap_cons, l44,
      List.count_cons, fixtureCountsOfText, getCount_fixtureTally]
    simp
  · rw [fixtureCountsOfText, getCount_fixtureTally, h44, List.filterMap_cons, l44,
      List.count_cons, fixtureCountsOfText, getCount_fixtureTally]
    simp
  · rw [fixtureCountsOfText, getCount_fixtureTally, h77, List.filterMap_cons, l77,
      List.count_cons, fixtureCountsOfText, getCount_fixtureTally]
    simp
  · rw [fixtureCountsOfText, getCount_fixtureTally, h77, List.filterMap_cons, l77,
      List.count_cons, fixtureCountsOfText, getCount_fixtureTally]
    simp

/-- C8 (amended): a page index past the end of the document is handled
locally, but differently per extractor: `extract_technology` returns the
default mapping `{Cat 6 Jack: 0, Floor Box: 0}`, while `extract_fixture_counts`
raises `ValueError`; the raise is caught by the aggregating caller
`extract_fixture_counts_all_floors`, which skips the offending page, so the
pipeline never sees a hard failure. -/
theorem c8_out_of_range_recovery :
    (∀ (pages : List PdfPage) (page_num floor_count : Nat), pages.length ≤ page_num →
      extract_technology pages page_num floor_count =
        [("Cat 6 Jack", 0), ("Floor Box", 0)]) ∧
    (∀ (pages : List (List Char)) (page_num : Nat), pages.length ≤ page_num →
      extract_fixture_counts pages page_num = Except.error "Page not found in PDF") ∧
    (∀ (pages : List (List Char)) (name : String) (bad : Nat)
      (rest : List (String × Nat)), pages.length ≤ bad →
      extract_fixture_counts_all_floors pages ((name, bad) :: rest) =
        extract_fixture_counts_all_floors pages rest) := by
  refine ⟨?_, ?_, ?_⟩
  · intro pages page_num floor_count h
    rw [extract_technology, dif_neg (by omega)]
  · intro pages page_num h
    rw [extract_fixture_counts, dif_neg (by omega)]
  · intro pages name bad rest h
    have herr : extract_fixture_counts pages bad = Except.error "Page not found in PDF" := by
      rw [extract_fixture_counts, dif_neg (by omega)]
    rw [extract_fixture_counts_all_floors, List.foldl_cons]
    rw [extract_fixture_counts_all_floors]
    congr 1
    show (match extract_fixture_counts pages bad with
      | Except.ok c => mergeDict [] c
      | Except.error _ => []) = []
    rw [herr]

/-- Witness for C8 on the empty document at page index 0. -/
theorem c8_out_of_range_recovery_witness :
    extract_technology [] 0 2 = [("Cat 6 Jack", 0), ("Floor Box", 0)] ∧
    extract_fixture_counts ([] : List (List Char)) 3 = Except.error "Page not found in PDF" ∧
    extract_fixture_counts_all_floors [] [("E200", 0)] =
      extract_fixture_counts_all_floors [] [] := by
  have h := c8_out_of_range_recovery
  exact ⟨h.1 [] 0 2 (by decide), h.2.1 [] 3 (by decide), h.2.2 [] "E200" 0 [] (by decide)⟩

/-- C8 counterexample: on an empty document, `extract_fixture_counts` at page 0
raises (`Except.error`) rather than returning an empty count mapping. -/
theorem c8_fixture_counts_raises :
    extract_fixture_counts ([] : List (List Char)) 0 = Except.error "Page not found in PDF" ∧
    extract_fixture_counts ([] : List (List Char)) 0 ≠ Except.ok [] := by
  refine ⟨rfl, ?_⟩
  rw [show extract_fixture_counts ([] : List (List Char)) 0 =
    Except.error "Page not found in PDF" from rfl]
  intro h
  exact Except.noConfusion h

theorem getCount_nil (k : String) : getCount [] k = 0 := rfl

theorem getCount_cons (k0 : String) (v0 : Nat) (tl : List (String × Nat)) (k : String) :
    getCount ((k0, v0) :: tl) k = if k0 = k then v0 else getCount tl k := by
  by_cases h : k0 = k
  · subst h
    simp [getCount, List.lookup]
  · simp [getCount, List.lookup, h,
      show (k == k0) = false from beq_eq_false_iff_ne.2 (Ne.symm h)]

theorem getCount_eq_zero_of_not_mem {d : List (String × Nat)} {k : String}
    (h : k ∉ d.map Prod.fst) : getCount d k = 0 := by
  induction d with
  | nil => rfl
  | cons hd tl ih =>
    obtain ⟨k0, v0⟩ := hd
    simp only [List.map_cons, List.mem_cons] at h
    push_neg at h
    rw [getCount_cons, if_neg (fun he => h.1 he.symm)]
    exact ih h.2

theorem setEntry_keys (d : List (String × Nat)) (k : String) (v : Nat) :
    (setEntry d k v).map Prod.fst =
      if k ∈ d.map Prod.fst then d.map Prod.fst else d.map Prod.fst ++ [k] := by
  induction d with
  | nil => simp [setEntry]
  | cons hd tl ih =>
    obtain ⟨k0, v0⟩ := hd
    simp only [setEntry]
    by_cases h0 : k0 = k
    · subst h0
      simp
    · rw [if_neg h0]
      simp only [List.map_cons, List.mem_cons]
      rw [ih]
      by_cases hm : k ∈ tl.map Prod.fst
      · simp [hm, h0]
      · have hnot : ¬ (k = k0 ∨ k ∈ tl.map Prod.fst) := by
          push_neg
          exact ⟨fun he => h0 he.symm, hm⟩
        simp [hm, hnot, show ¬ k = k0 from fun he => h0 he.symm]

theorem setEntry_keys_nodup {d : List (String × Nat)} (hd : dictKeysNodup d)
    (k : String) (v : Nat) : dictKeysNodup (setEntry d k v) := by
  unfold dictKeysNodup at hd ⊢
  rw [setEntry_keys]
  by_cases hm : k ∈ d.map Prod.fst
  · rw [if_pos hm]; exact hd
  · rw [if_neg hm]
    simp [List.nodup_append, hd, hm]

theorem mergeDict_keys_nodup :
    ∀ (e d : List (String × Nat)), dictKeysNodup d → dictKeysNodup (mergeDict d e) := by
  intro e
  induction e with
  | nil => intro d hd; exact hd
  | cons x tl ih =>
    intro d hd
    rw [mergeDict, List.foldl_cons]
    exact ih _ (setEntry_keys_nodup hd x.1 (getCount d x.1 + x.2))

theorem getCount_mergeDict :
    ∀ (e d : List (String × Nat)) (k : String), (e.map Prod.fst).Nodup →
      getCount (mergeDict d e) k = getCount d k + getCount e k := by
  intro e
  induction e with
  | nil => intro d k _; simp [mergeDict, getCount_nil]
  | cons x tl ih =>
    intro d k hnd
    obtain ⟨k0, v0⟩ := x
    simp only [List.map_cons, List.nodup_cons] at hnd
    rw [mergeDict, List.foldl_cons]
    rw [show (List.foldl (fun acc kv => setEntry acc kv.1 (getCount acc kv.1 + kv.2))
      (setEntry d k0 (getCount d k0 + v0)) tl) =
      mergeDict (setEntry d k0 (getCount d k0 + v0)) tl from rfl]
    rw [ih _ k hnd.2, getCount_setEntry, getCount_cons]
    by_cases h : k0 = k
    · subst h
      rw [if_pos rfl, if_pos rfl, getCount_eq_zero_of_not_mem hnd.1]
      omega
    · rw [if_neg h, if_neg h]

theorem mergeFold_getCount (f : DeviceCounts → List (String × Nat))
    (hf : ∀ a b, f (DeviceCounts.merge a b) = mergeDict (f a) (f b)) :
    ∀ (l : List DeviceCounts) (acc : DeviceCounts) (k : String),
      (∀ dc ∈ l, ((f dc).map Prod.fst).Nodup) →
      getCount (f (l.foldl DeviceCounts.merge acc)) k =
        getCount (f acc) k + (l.map (fun dc => getCount (f dc) k)).sum := by
  intro l
  induction l with
  | nil => intro acc k _; simp
  | cons b l ih =>
    intro acc k hgood
    simp only [List.foldl_cons, List.map_cons, List.sum_cons]
    rw [ih (acc.merge b) k (fun dc h => hgood dc (by simp [h]))]
    rw [hf, getCount_mergeDict _ _ _ (hgood b (by simp))]
    omega

theorem mergeList_getCount (l : List DeviceCounts) (h : ∀ dc ∈ l, goodCounts dc)
    (k : String) :
    getCount (mergeList l).fixtures k = (l.map (fun dc => getCount dc.fixtures k)).sum ∧
    getCount (mergeList l).controls k = (l.map (fun dc => getCount dc.controls k)).sum ∧
    getCount (mergeList l).power k = (l.map (fun dc => getCount dc.power k)).sum ∧
    getCount (mergeList l).fire_alarm k = (l.map (fun dc => getCount dc.fire_alarm k)).sum ∧
    getCount (mergeList l).technology k = (l.map (fun dc => getCount dc.technology k)).sum ∧
    getCount (mergeList l).demo k = (l.map (fun dc => getCount dc.demo k)).sum := by
  refine ⟨?_, ?_, ?_, ?_, ?_, ?_⟩
  · simpa [mergeList, emptyCounts, getCount_nil] using mergeFold_getCount (fun dc => dc.fixtures) (fun a b => rfl) l emptyCounts k
      (fun dc hdc => (h dc hdc).1)
  · simpa [mergeList, emptyCounts, getCount_nil] using mergeFold_getCount (fun dc => dc.controls) (fun a b => rfl) l emptyCounts k
      (fun dc hdc => (h dc hdc).2.1)
  · simpa [mergeList, emptyCounts, getCount_nil] using mergeFold_getCount (fun dc => dc.power) (fun a b => rfl) l emptyCounts k
      (fun dc hdc => (h dc hdc).2.2.1)
  · simpa [mergeList, emptyCounts, getCount_nil] using mergeFold_getCount (fun dc => dc.fire_alarm) (fun a b => rfl) l emptyCounts k
      (fun dc hdc => (h dc hdc).2.2.2.1)
  · simpa [mergeList, emptyCounts, getCount_nil] using mergeFold_getCount (fun dc => dc.technology) (fun a b => rfl) l emptyCounts k
      (fun dc hdc => (h dc hdc).2.2.2.2.1)
  · simpa [mergeList, emptyCounts, getCount_nil] using mergeFold_getCount (fun dc => dc.demo) (fun a b => rfl) l emptyCounts k
      (fun dc hdc => (h dc hdc).2.2.2.2.2)

/-- C9: `DeviceCounts.merge` is per-key integer summation, and as a reduction
over a list of snapshots it is associative and commutative: the reduction
equals the per-key sum over the list, any permutation of the list merges to
identical per-key counts in every category, and regrouping or swapping two
merges leaves every per-key count unchanged.  (Each dict has distinct keys, as
every Python dict does.) -/
theorem c9_merge_assoc_comm :
    (∀ (l : List DeviceCounts), (∀ dc ∈ l, goodCounts dc) → ∀ k,
      getCount (mergeList l).fixtures k = (l.map (fun dc => getCount dc.fixtures k)).sum ∧
      getCount (mergeList l).controls k = (l.map (fun dc => getCount dc.controls k)).sum ∧
      getCount (mergeList l).power k = (l.map (fun dc => getCount dc.power k)).sum ∧
      getCount (mergeList l).fire_alarm k =
        (l.map (fun dc => getCount dc.fire_alarm k)).sum ∧
      getCount (mergeList l).technology k =
        (l.map (fun dc => getCount dc.technology k)).sum ∧
      getCount (mergeList l).demo k = (l.map (fun dc => getCount dc.demo k)).sum) ∧
    (∀ (l1 l2 : List DeviceCounts), (∀ dc ∈ l1, goodCounts dc) → l1.Perm l2 →
      sameCounts (mergeList l1) (mergeList l2)) ∧
    (∀ a b c : DeviceCounts, goodCounts b → goodCounts c →
      sameCounts ((a.merge b).merge c) (a.merge (b.merge c))) ∧
    (∀ a b : DeviceCounts, goodCounts a → goodCounts b →
      sameCounts (a.merge b) (b.merge a)) := by
  refine ⟨fun l h k => mergeList_getCount l h k, ?_, ?_, ?_⟩
  · intro l1 l2 h1 hperm
    have h2 : ∀ dc ∈ l2, goodCounts dc := fun dc hdc => h1 dc (hperm.mem_iff.2 hdc)
    intro k
    have e1 := mergeList_getCount l1 h1 k
    have e2 := mergeList_getCount l2 h2 k
    refine ⟨?_, ?_, ?_, ?_, ?_, ?_⟩
    · rw [e1.1, e2.1, (hperm.map (fun dc => getCount dc.fixtures k)).sum_eq]
    · rw [e1.2.1, e2.2.1, (hperm.map (fun dc => getCount dc.controls k)).sum_eq]
    · rw [e1.2.2.1, e2.2.2.1, (hperm.map (fun dc => getCount dc.power k)).sum_eq]
    · rw [e1.2.2.2.1, e2.2.2.2.1, (hperm.map (fun dc => getCount dc.fire_alarm k)).sum_eq]
    · rw [e1.2.2.2.2.1, e2.2.2.2.2.1,
        (hperm.map (fun dc => getCount dc.technology k)).sum_eq]
    · rw [e1.2.2.2.2.2, e2.2.2.2.2.2, (hperm.map (fun dc => getCount dc.demo k)).sum_eq]
  · intro a b c hb hc k
    refine ⟨?_, ?_, ?_, ?_, ?_, ?_⟩
    · show getCount (mergeDict (mergeDict a.fixtures b.fixtures) c.fixtures) k =
        getCount (mergeDict a.fixtures (mergeDict b.fixtures c.fixtures)) k
      rw [getCount_mergeDict _ _ _ hc.1, getCount_mergeDict _ _ _ hb.1,
        getCount_mergeDict _ _ _ (mergeDict_keys_nodup _ _ hb.1),
        getCount_mergeDict _ _ _ hc.1]
      omega
    · show getCount (mergeDict (mergeDict a.controls b.controls) c.controls) k =
        getCount (mergeDict a.controls (mergeDict b.controls c.controls)) k
      rw [getCount_mergeDict _ _ _ hc.2.1, getCount_mergeDict _ _ _ hb.2.1,
        getCount_mergeDict _ _ _ (mergeDict_keys_nodup _ _ hb.2.1),
        getCount_mergeDict _ _ _ hc.2.1]
      omega
    · show getCount (mergeDict (mergeDict a.power b.power) c.power) k =
        getCount (mergeDict a.power (mergeDict b.power c.power)) k
      rw [getCount_mergeDict _ _ _ hc.2.2.1, getCount_mergeDict _ _ _ hb.2.2.1,
        getCount_mergeDict _ _ _ (mergeDict_keys_nodup _ _ hb.2.2.1),
        getCount_mergeDict _ _ _ hc.2.2.1]
      omega
    · show getCount (mergeDict (mergeDict a.fire_alarm b.fire_alarm) c.fire_alarm) k =
        getCount (mergeDict a.fire_alarm (mergeDict b.fire_alarm c.fire_alarm)) k
      rw [getCount_mergeDict _ _ _ hc.2.2.2.1, getCount_mergeDict _ _ _ hb.2.2.2.1,
        getCount_mergeDict _ _ _ (mergeDict_keys_nodup _ _ hb.2.2.2.1),
        getCount_mergeDict _ _ _ hc.2.2.2.1]
      omega
    · show getCount (mergeDict (mergeDict a.technology b.technology) c.technology) k =
        getCount (mergeDict a.technology (mergeDict b.technology c.technology)) k
      rw [getCount_mergeDict _ _ _ hc.2.2.2.2.1, getCount_mergeDict _ _ _ hb.2.2.2.2.1,
        getCount_mergeDict _ _ _ (mergeDict_keys_nodup _ _ hb.2.2.2.2.1),
        getCount_mergeDict _ _ _ hc.2.2.2.2.1]
      omega
    · show getCount (mergeDict (mergeDict a.demo b.demo) c.demo) k =
        getCount (mergeDict a.demo (mergeDict b.demo c.demo)) k
      rw [getCount_mergeDict _ _ _ hc.2.2.2.2.2, getCount_mergeDict _ _ _ hb.2.2.2.2.2,
        getCount_mergeDict _ _ _ (mergeDict_keys_nodup _ _ hb.2.2.2.2.2),
        getCount_mergeDict _ _ _ hc.2.2.2.2.2]
      omega
  · intro a b ha hb k
    refine ⟨?_, ?_, ?_, ?_, ?_, ?_⟩
    · show getCount (mergeDict a.fixtures b.fixtures) k =
        getCount (mergeDict b.fixtures a.fixtures) k
      rw [getCount_mergeDict _ _ _ hb.1, getCount_mergeDict _ _ _ ha.1]
      omega
    · show getCount (mergeDict a.controls b.controls) k =
        getCount (mergeDict b.controls a.controls) k
      rw [getCount_mergeDict _ _ _ hb.2.1, getCount_mergeDict _ _ _ ha.2.1]
      omega
    · show getCount (mergeDict a.power b.power) k =
        getCount (mergeDict b.power a.power) k
      rw [getCount_mergeDict _ _ _ hb.2.2.1, getCount_mergeDict _ _ _ ha.2.2.1]
      omega
    · show getCount (mergeDict a.fire_alarm b.fire_alarm) k =
        getCount (mergeDict b.fire_alarm a.fire_alarm) k
      rw [getCount_mergeDict _ _ _ hb.2.2.2.1, getCount_mergeDict _ _ _ ha.2.2.2.1]
      omega
    · show getCount (mergeDict a.technology b.technology) k =
        getCount (mergeDict b.technology a.technology) k
      rw [getCount_mergeDict _ _ _ hb.2.2.2.2.1, getCount_mergeDict _ _ _ ha.2.2.2.2.1]
      omega
    · show getCount (mergeDict a.demo b.demo) k =
        getCount (mergeDict b.demo a.demo) k
      rw [getCount_mergeDict _ _ _ hb.2.2.2.2.2, getCount_mergeDict _ _ _ ha.2.2.2.2.2]
      omega

/-- Witness for C9 on two concrete one-key snapshots in either order. -/
theorem c9_merge_assoc_comm_witness :
    sameCounts
      (mergeList [⟨[("F2", 3)], [], [], [], [], []⟩, ⟨[("F2", 4)], [], [], [], [], []⟩])
      (mergeList [⟨[("F2", 4)], [], [], [], [], []⟩, ⟨[("F2", 3)], [], [], [], [], []⟩]) := by
  apply c9_merge_assoc_comm.2.1
  · intro dc hdc
    simp only [List.mem_cons, List.not_mem_nil, or_false] at hdc
    rcases hdc with h | h <;> subst h <;>
      exact ⟨by simp [dictKeysNodup], by simp [dictKeysNodup], by simp [dictKeysNodup],
        by simp [dictKeysNodup], by simp [dictKeysNodup], by simp [dictKeysNodup]⟩
  · exact List.Perm.swap _ _ _

theorem strEndsWith_append (pre suf : String) : strEndsWith suf (pre ++ suf) = true := by
  unfold strEndsWith
  rw [String.data_append pre suf]
  have hlen : (pre.data ++ suf.data).length - suf.data.length = pre.data.length := by
    rw [List.length_append]
    omega
  rw [hlen, List.drop_left]
  exact beq_self_eq_true _

theorem derive_fittings_key_suffix :
    ∀ (co2 : List (String × Int)) (k : String),
      k ∈ (derive_fittings_from_conduit co2).map Prod.fst →
      ∃ suf ∈ fittingKeySuffixes, ∃ size : String, k = size ++ suf := by
  intro co2 k hk
  obtain ⟨pair, hpair, rfl⟩ := List.mem_map.1 hk
  unfold derive_fittings_from_conduit at hpair
  obtain ⟨sl, hsl, hmem⟩ := List.mem_flatMap.1 hpair
  by_cases hle : sl.2 ≤ 0
  · rw [if_pos hle] at hmem
    exact absurd hmem (List.not_mem_nil _)
  · rw [if_neg hle] at hmem
    rw [List.mem_append] at hmem
    rcases hmem with hmem | hmem
    · simp only [List.mem_cons, List.not_mem_nil, or_false] at hmem
      rcases hmem with rfl | rfl | rfl | rfl
      · exact ⟨" Connector", by simp [fittingKeySuffixes], sl.1, rfl⟩
      · exact ⟨" Coupling", by simp [fittingKeySuffixes], sl.1, rfl⟩
      · exact ⟨" Bushing", by simp [fittingKeySuffixes], sl.1, rfl⟩
      · exact ⟨" 1-Hole Strap", by simp [fittingKeySuffixes], sl.1, rfl⟩
    · by_cases hs : 0 < (fittingRatiosFor sl.1).strapUnistrut
      · rw [if_pos hs] at hmem
        simp only [List.mem_cons, List.not_mem_nil, or_false] at hmem
        subst hmem
        exact ⟨" Unistrut Strap", by simp [fittingKeySuffixes], sl.1, rfl⟩
      · rw [if_neg hs] at hmem
        exact absurd hmem (List.not_mem_nil _)

theorem derive_wire_keys :
    ∀ (co2 : List (String × Int)) (k : String),
      k ∈ (derive_wire_from_conduit co2).map Prod.fst → k ∈ wireKeys := by
  intro co2 k hk
  unfold derive_wire_from_conduit at hk
  simp only [List.map_append, List.mem_append, or_assoc] at hk
  rcases hk with h | h | h | h
  · cases hl : co2.lookup "1/2\"" with
    | none =>
      rw [hl] at h
      exact absurd h (List.not_mem_nil _)
    | some v =>
      rw [hl] at h
      dsimp only at h
      split_ifs at h with hv
      · simp only [List.map_cons, List.map_nil, List.mem_singleton] at h
        subst h
        simp [wireKeys]
      · exact absurd h (List.not_mem_nil _)
  · cases hl : co2.lookup "3/4\"" with
    | none =>
      rw [hl] at h
      exact absurd h (List.not_mem_nil _)
    | some v =>
      rw [hl] at h
      dsimp only at h
      split_ifs at h with hv
      · simp only [List.map_cons, List.map_nil, List.mem_singleton] at h
        subst h
        simp [wireKeys]
      · exact absurd h (List.not_mem_nil _)
  · cases hl : co2.lookup "1\"" with
    | none =>
      rw [hl] at h
      exact absurd h (List.not_mem_nil _)
    | some v =>
      rw [hl] at h
      dsimp only at h
      split_ifs at h with hv
      · simp only [List.map_cons, List.map_nil, List.mem_singleton] at h
        subst h
        simp [wireKeys]
      · exact absurd h (List.not_mem_nil _)
  · cases hl : co2.lookup "1-1/4\"" with
    | none =>
      rw [hl] at h
      exact absurd h (List.not_mem_nil _)
    | some v =>
      rw [hl] at h
      dsimp only at h
      split_ifs at h with hv
      · simp only [List.map_cons, List.map_nil, List.mem_singleton] at h
        subst h
        simp [wireKeys]
      · exact absurd h (List.not_mem_nil _)

theorem derive_all_materials_keys (counts : String → Nat)
    (inclF inclC inclW : Bool) (co : Option (List (String × Int)))
    (hco : co = none ∨ co = some []) :
    (derive_all_materials counts co inclF inclC inclW).map Prod.fst =
      baseMaterialKeys inclC := by
  have hempty : pyNonEmpty co = false := by
    rcases hco with rfl | rfl <;> rfl
  unfold derive_all_materials
  rw [hempty]
  cases inclC <;>
    simp [derive_boxes, derive_plaster_rings, derive_plates, derive_fixture_accessories,
      derive_consumables, baseMaterialKeys]

/-- C7: with no conduit length data (`None` or an empty dict),
`derive_all_materials` emits exactly the non-conduit material keys: no fitting
entry (every fitting key ends in one of the five fitting suffixes, and no
emitted key does) and no wire entry (none of the four wire keys appears) — the
fitting and wire rules are skipped rather than emitted with zero quantities. -/
theorem c7_no_conduit_no_fitting_wire_entries :
    ∀ (counts : String → Nat) (inclF inclC inclW : Bool)
      (co : Option (List (String × Int))), (co = none ∨ co = some []) →
      ((derive_all_materials counts co inclF inclC inclW).map Prod.fst =
        baseMaterialKeys inclC) ∧
      (∀ k, k ∈ (derive_all_materials counts co inclF inclC inclW).map Prod.fst →
        (∀ suf ∈ fittingKeySuffixes, ∀ size : String, k ≠ size ++ suf) ∧
        k ∉ wireKeys) ∧
      (∀ (co2 : List (String × Int)) (k : String),
        k ∈ (derive_fittings_from_conduit co2).map Prod.fst →
        ∃ suf ∈ fittingKeySuffixes, ∃ size : String, k = size ++ suf) ∧
      (∀ (co2 : List (String × Int)) (k : String),
        k ∈ (derive_wire_from_conduit co2).map Prod.fst → k ∈ wireKeys) := by
  intro counts inclF inclC inclW co hco
  refine ⟨derive_all_materials_keys counts inclF inclC inclW co hco, ?_,
    derive_fittings_key_suffix, derive_wire_keys⟩
  intro k hk
  rw [derive_all_materials_keys counts inclF inclC inclW co hco] at hk
  have hdec : ∀ s ∈ baseMaterialKeys inclC,
      (fittingKeySuffixes.all (fun suf => !(strEndsWith suf s)) = true) ∧
      s ∉ wireKeys := by
    cases inclC <;> decide
  have h := hdec k hk
  constructor
  · intro suf hsuf size hke
    have h1 : strEndsWith suf k = true := by rw [hke]; exact strEndsWith_append size suf
    have h2 := List.all_eq_true.1 h.1 suf hsuf
    rw [h1] at h2
    exact absurd h2 (by decide)
  · exact h.2

/-- Witness for C7 with empty counts, absent conduit data and all optional
groups requested. -/
theorem c7_no_conduit_no_fitting_wire_entries_witness :
    (derive_all_materials (fun _ => 0) none true true true).map Prod.fst =
      baseMaterialKeys true ∧
    "#12 THHN" ∉ (derive_all_materials (fun _ => 0) none true true true).map Prod.fst := by
  have h := c7_no_conduit_no_fitting_wire_entries (fun _ => 0) true true true none (Or.inl rfl)
  refine ⟨h.1, fun hmem => ?_⟩
  exact absurd (by decide : ("#12 THHN" : String) ∈ wireKeys) (fun _ => (h.2.1 _ hmem).2 (by decide))
